import Mathlib

/-!
# sproxy: a shallow embedding of the proxy dispatcher and its middleware

The development follows the Go sources

* `proxy.go`                  (package `sproxy`)
* `middleware/requestid.go`   (package `middleware`)
* `middleware/logging.go`     (package `middleware`)

Go maps are association lists, Go `error` values are `Option String`
(`none` is the nil error), a Go panic is an explicit outcome, and the parts of
the standard library the sources call (`net/http`, `net/textproto`, `context`,
`log/slog`) are modelled next to the code that uses them.
-/

namespace Sproxy

/-! ## net/textproto: canonical header keys -/

/-- Token bytes of a header field name (`validHeaderFieldByte` of net/textproto):
digits, letters and the fifteen punctuation bytes of an RFC 7230 token. -/
def validHeaderFieldByte (c : Char) : Bool :=
  let n := c.toNat
  (48 ≤ n && n ≤ 57) || (65 ≤ n && n ≤ 90) || (97 ≤ n && n ≤ 122) ||
  [33, 35, 36, 37, 38, 39, 42, 43, 45, 46, 94, 95, 96, 124, 126].contains n

/-- Byte test `'a' <= c && c <= 'z'`. -/
def isLowerByte (c : Char) : Bool := 97 ≤ c.toNat && c.toNat ≤ 122

/-- Byte test `'A' <= c && c <= 'Z'`. -/
def isUpperByte (c : Char) : Bool := 65 ≤ c.toNat && c.toNat ≤ 90

/-- Second loop of `canonicalMIMEHeaderKey`: upper case for the first letter and
for a letter after a dash, lower case elsewhere. -/
def canonicalizeBytes : Bool → List Char → List Char
  | _, [] => []
  | upper, c :: rest =>
    let c1 :=
      if upper && isLowerByte c then Char.ofNat (c.toNat - 32)
      else if !upper && isUpperByte c then Char.ofNat (c.toNat + 32)
      else c
    c1 :: canonicalizeBytes (c1 == '-') rest

/-- Inner `canonicalMIMEHeaderKey` of net/textproto: a key holding a byte that is
neither a token byte nor a space, or holding a space, is returned unchanged. -/
def canonicalMIMEHeaderKey (a : List Char) : List Char :=
  if a.any (fun c => !validHeaderFieldByte c && c != ' ') then a
  else if a.any (fun c => !validHeaderFieldByte c) then a
  else canonicalizeBytes true a

/-- Quick scan of `CanonicalMIMEHeaderKey`: `true` when the scan reaches a letter
in the wrong case (the key is then handed to `canonicalMIMEHeaderKey`), `false`
when it meets an invalid byte or the end of the key (the key is returned as is). -/
def needsCanonicalization : Bool → List Char → Bool
  | _, [] => false
  | upper, c :: rest =>
    if !validHeaderFieldByte c then false
    else if upper && isLowerByte c then true
    else if !upper && isUpperByte c then true
    else needsCanonicalization (c == '-') rest

/-- Function `textproto.CanonicalMIMEHeaderKey`. -/
def CanonicalMIMEHeaderKey (s : String) : String :=
  if needsCanonicalization true s.data then String.mk (canonicalMIMEHeaderKey s.data) else s

/-! ## net/http: `Header`, a `map[string][]string` -/

/-- A Go `http.Header`.  The list order is the order in which a `range` loop
visits the keys. -/
abbrev Header := List (String × List String)

namespace Header

/-- Map read with presence, `vs, ok := h[k]`. -/
def lookup : Header → String → Option (List String)
  | [], _ => none
  | (k1, vs) :: rest, k => if k1 = k then some vs else lookup rest k

/-- Map read `h[k]`: the nil slice for an absent key. -/
def index (h : Header) (k : String) : List String := (lookup h k).getD []

/-- Builtin `delete(h, k)`. -/
def delete (h : Header) (k : String) : Header := h.filter (fun e => e.1 != k)

/-- Map write `h[k] = vs`. -/
def store : Header → String → List String → Header
  | [], k, vs => [(k, vs)]
  | (k1, vs1) :: rest, k, vs =>
    if k1 = k then (k1, vs) :: rest else (k1, vs1) :: store rest k vs

/-- Method `Header.Add`: `key = CanonicalMIMEHeaderKey(key); h[key] = append(h[key], value)`. -/
def Add (h : Header) (key value : String) : Header :=
  let key := CanonicalMIMEHeaderKey key
  store h key (index h key ++ [value])

/-- Method `Header.Set`: `h[CanonicalMIMEHeaderKey(key)] = []string{value}`. -/
def Set (h : Header) (key value : String) : Header :=
  store h (CanonicalMIMEHeaderKey key) [value]

/-- Method `Header.Get`: first value under the canonical key, `""` when there is none. -/
def Get (h : Header) (key : String) : String :=
  match index h (CanonicalMIMEHeaderKey key) with
  | [] => ""
  | v :: _ => v

/-- Method `Header.Del`: `delete(h, CanonicalMIMEHeaderKey(key))`. -/
def Del (h : Header) (key : String) : Header :=
  delete h (CanonicalMIMEHeaderKey key)

/-- The keys of the map. -/
def keys (h : Header) : List String := h.map (fun e => e.1)

/-- Keys in canonical form, as the documentation of `http.Header` asks. -/
def Canonical (h : Header) : Prop := ∀ k ∈ keys h, CanonicalMIMEHeaderKey k = k

end Header

/-! ## context -/

/-- A context key: Go compares keys by dynamic type and value. -/
structure CtxKey where
  typ : String
  val : String
  deriving DecidableEq

/-- A value of type `any` stored in a context. -/
inductive CtxValue where
  | str (s : String)
  | other (tag : Nat)
  deriving DecidableEq

/-- A non-nil `context.Context`: the background context extended by `context.WithValue`. -/
inductive Context where
  | background
  | withValue (parent : Context) (key : CtxKey) (val : CtxValue)
  deriving DecidableEq

/-- Method `Context.Value`: the innermost binding of the key, `nil` when there is none. -/
def Context.Value : Context → CtxKey → Option CtxValue
  | .background, _ => none
  | .withValue parent k v, key => if k = key then some v else parent.Value key

/-- Whether some binding of the key is in the chain of the context. -/
def Context.binds : Context → CtxKey → Bool
  | .background, _ => false
  | .withValue parent k _, key => k = key || parent.binds key

/-! ## middleware/requestid.go -/

/-- Constant `requestIdKey`, of the unexported type `requestId`. -/
def requestIdKey : CtxKey := ⟨"middleware.requestId", "request-id"⟩

/-- Function `GetRequestID`. -/
def GetRequestID (ctx : Context) : String :=
  match ctx.Value requestIdKey with
  | some (.str result) => result
  | _ => ""

/-- Function `SetRequestId`. -/
def SetRequestId (ctx : Context) (value : String) : Context :=
  .withValue ctx requestIdKey (.str value)

/-! ## proxy.go: header helpers -/

/-- Method `Proxy.copyHeader`; `src` lists the entries in the order the `range`
loop visits them. -/
def Proxy.copyHeader (dst src : Header) : Header :=
  src.foldl (fun dst kv => kv.2.foldl (fun dst value => Header.Add dst kv.1 value) dst) dst

/-- The slice `hopHeaders` of `removeHopHeaders`. -/
def Proxy.hopHeaders : List String :=
  ["Connection", "Keep-Alive", "Proxy-Authenticate", "Proxy-Authorization",
   "Proxy-Connection", "Te", "Trailer", "Transfer-Encoding", "Upgrade"]

/-- Method `Proxy.removeHopHeaders`. -/
def Proxy.removeHopHeaders (header : Header) : Header :=
  hopHeaders.foldl (fun header key => Header.Del header key) header

/-! ## log/slog -/

/-- The levels of `slog.Level` the sources use, with the two others. -/
inductive Level where
  | Debug
  | Info
  | Warn
  | Error
  deriving DecidableEq

/-- The value of a `slog.Attr`. -/
inductive AttrValue where
  | str (s : String)
  | int (i : Int)
  | duration (d : Int)
  deriving DecidableEq

/-- A `slog.Attr`. -/
structure Attr where
  Key : String
  Value : AttrValue
  deriving DecidableEq

/-- Constructor `slog.String`. -/
def slogString (key value : String) : Attr := ⟨key, .str value⟩

/-- Constructor `slog.Int`. -/
def slogInt (key : String) (value : Int) : Attr := ⟨key, .int value⟩

/-- Constructor `slog.Duration`. -/
def slogDuration (key : String) (value : Int) : Attr := ⟨key, .duration value⟩

/-- A `slog.Record` without its time stamp. -/
structure Record where
  Level : Level
  Message : String
  Attrs : List Attr
  deriving DecidableEq

/-- Method `Record.AddAttrs`. -/
def Record.AddAttrs (r : Record) (attrs : List Attr) : Record :=
  { r with Attrs := r.Attrs ++ attrs }

/-- One call `logger.LogAttrs(ctx, level, msg, attrs...)`: the context and the record
the logger hands to its handler. -/
structure LogCall where
  ctx : Context
  record : Record
  deriving DecidableEq

/-- Method `Logger.LogAttrs`. -/
def LogAttrs (ctx : Context) (level : Level) (msg : String) (attrs : List Attr) : LogCall :=
  ⟨ctx, ⟨level, msg, attrs⟩⟩

/-- A wrapped `slog.Handler`: its `Handle` method, returning a Go error. -/
structure SlogHandler where
  Handle : Context → Record → Option String

/-- Method `RequestIdHandler.Handle`. -/
def RequestIdHandler.Handle (h : SlogHandler) (ctx : Context) (record : Record) : Option String :=
  let requestId := GetRequestID ctx
  let record :=
    if requestId != "" then record.AddAttrs [slogString "request-id" requestId] else record
  h.Handle ctx record

/-! ## net/http: requests and response writers -/

/-- The fields of `url.URL` the sources read. -/
structure URL where
  Scheme : String
  Host : String
  Path : String
  deriving DecidableEq

/-- Method `URL.IsAbs`. -/
def URL.IsAbs (u : URL) : Bool := u.Scheme != ""

/-- The fields of `http.Request` the sources read. -/
structure Request where
  Method : String
  URL : URL
  Header : Header
  Host : String
  RequestURI : String
  RemoteAddr : String
  ctx : Context
  deriving DecidableEq

/-- Method `Request.Context`. -/
def Request.Context (r : Request) : Sproxy.Context := r.ctx

/-- Method `Request.WithContext`. -/
def Request.WithContext (r : Request) (ctx : Sproxy.Context) : Request := { r with ctx := ctx }

/-- A call of a handler on the response writer it was given. -/
inductive WriterCall where
  | WriteHeader (statusCode : Int)
  | Write (data : String)
  | HeaderAdd (key value : String)
  | HeaderSet (key value : String)
  | HeaderDel (key : String)
  deriving DecidableEq

/-- What the writer of the server offers for connection takeover: no `Hijack` method,
a `Hijack` that returns an error, or one that hands the connection over; `tcp` tells
whether that connection is a `*net.TCPConn`. -/
inductive HijackCap where
  | absent
  | fails (err : String)
  | succeeds (tcp : Bool)
  deriving DecidableEq

/-- The response writer of the HTTP server: its header map, the `WriteHeader` and
`Write` calls it received, and its takeover capability. -/
structure ServerWriter where
  header : Header
  calls : List WriterCall
  hijack : HijackCap
  deriving DecidableEq

/-- An `http.ResponseWriter`: the writer of the server, or a `logResponseWriter`
(middleware/logging.go) around another writer. -/
inductive ResponseWriter where
  | server (w : ServerWriter)
  | logResponseWriter (ResponseWriter : ResponseWriter) (statusCode : Int)
  deriving DecidableEq

/-- The result of `Hijack()`; `tcp` tells whether the connection is a `*net.TCPConn`. -/
inductive HijackResult where
  | conn (tcp : Bool)
  | err (e : String)
  | panic (msg : String)
  deriving DecidableEq

namespace ResponseWriter

/-- Method `Header()`; a `logResponseWriter` promotes the method of the embedded writer. -/
def Header : ResponseWriter → Sproxy.Header
  | .server w => w.header
  | .logResponseWriter inner _ => inner.Header

/-- An update of the map returned by `Header()`. -/
def modifyHeader (f : Sproxy.Header → Sproxy.Header) : ResponseWriter → ResponseWriter
  | .server w => .server { w with header := f w.header }
  | .logResponseWriter inner c => .logResponseWriter (inner.modifyHeader f) c

/-- Method `WriteHeader`; for a `logResponseWriter`:
`rw.statusCode = statusCode; rw.ResponseWriter.WriteHeader(statusCode)`. -/
def WriteHeader : ResponseWriter → Int → ResponseWriter
  | .server w, statusCode => .server { w with calls := w.calls ++ [.WriteHeader statusCode] }
  | .logResponseWriter inner _, statusCode =>
    .logResponseWriter (inner.WriteHeader statusCode) statusCode

/-- Method `Write`; a `logResponseWriter` promotes the method of the embedded writer. -/
def Write : ResponseWriter → String → ResponseWriter
  | .server w, data => .server { w with calls := w.calls ++ [.Write data] }
  | .logResponseWriter inner c, data => .logResponseWriter (inner.Write data) c

/-- Checked type assertion `_, ok := w.(http.Hijacker)`: a `logResponseWriter` always
has the method `Hijack`. -/
def isHijacker : ResponseWriter → Bool
  | .server w => w.hijack != .absent
  | .logResponseWriter _ _ => true

/-- Method `Hijack`; for a `logResponseWriter`:
`hijacker := rw.ResponseWriter.(http.Hijacker); return hijacker.Hijack()`, where the
unchecked assertion panics when the embedded writer has no such method. -/
def Hijack : ResponseWriter → HijackResult
  | .server w =>
    match w.hijack with
    | .succeeds tcp => .conn tcp
    | .fails e => .err e
    | .absent => .panic "ResponseWriter has no method Hijack"
  | .logResponseWriter inner _ =>
    if inner.isHijacker then inner.Hijack
    else .panic "interface conversion: http.ResponseWriter is not http.Hijacker: missing method Hijack"

/-- One call of a handler, dispatched to the method it names. -/
def call (w : ResponseWriter) : WriterCall → ResponseWriter
  | .WriteHeader statusCode => w.WriteHeader statusCode
  | .Write data => w.Write data
  | .HeaderAdd key value => w.modifyHeader (fun h => Sproxy.Header.Add h key value)
  | .HeaderSet key value => w.modifyHeader (fun h => Sproxy.Header.Set h key value)
  | .HeaderDel key => w.modifyHeader (fun h => Sproxy.Header.Del h key)

/-- The calls of a handler, in order. -/
def run (w : ResponseWriter) (calls : List WriterCall) : ResponseWriter :=
  calls.foldl call w

/-- The `WriteHeader` and `Write` calls that reached the writer of the server. -/
def serverCalls : ResponseWriter → List WriterCall
  | .server w => w.calls
  | .logResponseWriter inner _ => inner.serverCalls

end ResponseWriter

/-- The status codes of the `WriteHeader` calls in a list of calls, in order. -/
def statusCodes (calls : List WriterCall) : List Int :=
  calls.filterMap (fun c => match c with | .WriteHeader code => some code | _ => none)

namespace http

/-- Constant `http.MethodConnect`. -/
def MethodConnect : String := "CONNECT"

/-- Constant `http.StatusOK`. -/
def StatusOK : Int := 200

/-- Constant `http.StatusMethodNotAllowed`. -/
def StatusMethodNotAllowed : Int := 405

/-- Constant `http.StatusInternalServerError`. -/
def StatusInternalServerError : Int := 500

/-- Constant `http.StatusServiceUnavailable`. -/
def StatusServiceUnavailable : Int := 503

/-- Function `http.StatusText` on the codes the sources pass to it. -/
def StatusText (code : Int) : String :=
  if code = 200 then "OK"
  else if code = 405 then "Method Not Allowed"
  else if code = 500 then "Internal Server Error"
  else if code = 503 then "Service Unavailable"
  else ""

/-- Function `http.Error`: deletes `Content-Length` (Go 1.23 and later), sets the two
plain-text headers, writes the status code, then the message and a newline. -/
def Error (w : ResponseWriter) (error : String) (code : Int) : ResponseWriter :=
  let w := w.modifyHeader (fun h => Sproxy.Header.Del h "Content-Length")
  let w := w.modifyHeader (fun h => Sproxy.Header.Set h "Content-Type" "text/plain; charset=utf-8")
  let w := w.modifyHeader (fun h => Sproxy.Header.Set h "X-Content-Type-Options" "nosniff")
  let w := w.WriteHeader code
  w.Write (error ++ "\n")

end http

/-! ## middleware/logging.go -/

/-- The struct `logResponseWriter`: the embedded writer and the captured status code. -/
structure logResponseWriter where
  ResponseWriter : ResponseWriter
  statusCode : Int
  deriving DecidableEq

namespace logResponseWriter

/-- The struct as a value of the interface `http.ResponseWriter`. -/
def toWriter (rw : logResponseWriter) : Sproxy.ResponseWriter :=
  .logResponseWriter rw.ResponseWriter rw.statusCode

/-- Method `logResponseWriter.WriteHeader`. -/
def WriteHeader (rw : logResponseWriter) (statusCode : Int) : logResponseWriter :=
  let rw := { rw with statusCode := statusCode }
  { rw with ResponseWriter := rw.ResponseWriter.WriteHeader statusCode }

/-- Method `logResponseWriter.Hijack`. -/
def Hijack (rw : logResponseWriter) : HijackResult :=
  if rw.ResponseWriter.isHijacker then rw.ResponseWriter.Hijack
  else .panic "interface conversion: http.ResponseWriter is not http.Hijacker: missing method Hijack"

/-- One call of the inner handler on the wrapper: `WriteHeader` is the method above,
every other method is promoted from the embedded writer. -/
def call (rw : logResponseWriter) : WriterCall → logResponseWriter
  | .WriteHeader statusCode => rw.WriteHeader statusCode
  | c => { rw with ResponseWriter := rw.ResponseWriter.call c }

/-- The calls of the inner handler, in order. -/
def run (rw : logResponseWriter) (calls : List WriterCall) : logResponseWriter :=
  calls.foldl call rw

end logResponseWriter

/-- One execution of the inner handler of a middleware, as the writer it was given
sees it: the calls it made, in order, and whether it ended in a panic. -/
structure HandlerRun where
  calls : List WriterCall
  panics : Bool
  deriving DecidableEq

/-- What one call of `LoggingMiddleware.ServeHTTP` leaves behind: the writer of the
caller, the records handed to the logger, and whether the panic of the inner
handler went through. -/
structure LoggingResult where
  w : ResponseWriter
  statusCode : Int
  logs : List LogCall
  panicked : Bool
  deriving DecidableEq

/-- Method `LoggingMiddleware.ServeHTTP`; `start` and `finish` are the readings of the
clock at `time.Now()` and `time.Since(start)`, `run` the execution of
`m.next.ServeHTTP(writer, r)`. -/
def LoggingMiddleware.ServeHTTP (run : HandlerRun) (start finish : Int)
    (w : ResponseWriter) (r : Request) : LoggingResult :=
  let started := LogAttrs r.Context .Info "request started"
    [slogString "method" r.Method, slogString "uri" r.RequestURI,
     slogString "remote" r.RemoteAddr]
  let writer : logResponseWriter := ⟨w, http.StatusOK⟩
  let writer := writer.run run.calls
  if run.panics then
    ⟨writer.ResponseWriter, writer.statusCode, [started], true⟩
  else
    let duration := finish - start
    let level := if writer.statusCode ≥ http.StatusInternalServerError then Level.Error else Level.Info
    let finished := LogAttrs r.Context level "request finished"
      [slogString "method" r.Method, slogString "uri" r.RequestURI,
       slogString "remote" r.RemoteAddr, slogInt "status" writer.statusCode,
       slogDuration "duration" duration]
    ⟨writer.ResponseWriter, writer.statusCode, [started, finished], false⟩

/-! ## middleware/requestid.go: the ingress middleware -/

/-- Method `RequestIdMiddleware.ServeHTTP`; `fresh` is the string `ulid.Make().String()`
returns, `next` the method `ServeHTTP` of the field `next`. -/
def RequestIdMiddleware.ServeHTTP {α : Type} (next : ResponseWriter → Request → α)
    (allowRemote : Bool) (fresh : String) (w : ResponseWriter) (r : Request) : α :=
  let requestId := ""
  let requestId := if allowRemote then Header.Get r.Header "X-Request-ID" else requestId
  let requestId := if requestId == "" then fresh else requestId
  let ctx := SetRequestId r.Context requestId
  let r := r.WithContext ctx
  next w r

/-! ## proxy.go: the transfer engine -/

/-- One execution of the two goroutines of `transfer`: `errFirst` is the result of
`io.Copy` in the goroutine started by `go copy(dst, src)`, `errSecond` the one in the
goroutine started by `go copy(src, dst)`, and `firstSendsFirst` tells whether the
send `done <- err` of the former precedes the send of the latter. -/
structure TransferRun where
  errFirst : Option String
  errSecond : Option String
  firstSendsFirst : Bool
  deriving DecidableEq

/-- The send `done <- err` on the buffered channel, a queue. -/
def chanSend (done : List (Option String)) (err : Option String) : List (Option String) :=
  done ++ [err]

/-- Method `Proxy.transfer`: the two sends in the order of the run, then
`err1 := <-done; err2 := <-done` and the two tests. -/
def Proxy.transfer (run : TransferRun) : Option String :=
  let done : List (Option String) := []
  let done :=
    if run.firstSendsFirst then chanSend (chanSend done run.errFirst) run.errSecond
    else chanSend (chanSend done run.errSecond) run.errFirst
  match done with
  | err1 :: err2 :: _ =>
    if err1 != none then err1
    else if err2 != none then err2
    else none
  | _ => none

/-! ## proxy.go: the dispatcher -/

/-- The fields of `http.Response` the sources read. -/
structure Response where
  StatusCode : Int
  Header : Header
  Body : String
  deriving DecidableEq

/-- The collaborators of one request: the outcome of `net.DialTimeout` for a host
(`none` when the connection is made), the outcome of `RoundTrip`, the chunks
`io.Copy(w, response.Body)` writes with its error, and the run of the tunnel. -/
structure Env where
  dial : String → Option String
  roundTrip : Request → Except String Response
  copyBody : Response → List String × Option String
  tunnel : TransferRun

/-- What a handler does besides calling its response writer. -/
inductive Effect where
  | log (c : LogCall)
  | dial (host : String)
  | roundTrip (r : Request)
  | bodyClose
  | hijack
  | connWrite (data : String)
  | transfer
  deriving DecidableEq

/-- The response writer and the effects so far. -/
structure State where
  w : ResponseWriter
  effects : List Effect
  deriving DecidableEq

/-- How a handler ends: it returns, or a panic unwinds it. -/
inductive Outcome where
  | returned (s : State)
  | panicked (s : State) (msg : String)
  deriving DecidableEq

/-- The state a handler ends in. -/
def Outcome.state : Outcome → State
  | .returned s => s
  | .panicked s _ => s

/-- Whether the handler ended in a panic. -/
def Outcome.isPanic : Outcome → Bool
  | .returned _ => false
  | .panicked _ _ => true

/-- The method call `err.Error()`: on the nil error there is no method to call and the
run time panics. -/
def errorText : Option String → Except String String
  | some msg => .ok msg
  | none => .error "runtime error: invalid memory address or nil pointer dereference"

/-- The call `p.logger.LogAttrs(ctx, slog.LevelError, msg, slog.String("error", err.Error()), rest...)`
followed by `k`: the arguments are evaluated before the call is made. -/
def logError (s : State) (ctx : Context) (msg : String) (err : Option String)
    (rest : List Attr) (k : State → Outcome) : Outcome :=
  match errorText err with
  | .error p => .panicked s p
  | .ok text =>
    k { s with effects := s.effects ++
          [.log (LogAttrs ctx .Error msg (slogString "error" text :: rest))] }

/-- Method `Proxy.handleConnect`.  The connection `net.DialTimeout("tcp", ...)` returns
is a `*net.TCPConn`; the unchecked assertion `client.(*net.TCPConn)` panics when the
connection taken over is not one. -/
def Proxy.handleConnect (env : Env) (w : ResponseWriter) (r : Request) : Outcome :=
  let err := env.dial r.Host
  let s : State := ⟨w, [.dial r.Host]⟩
  if err != none then
    logError s r.Context "error connecting host" err [slogString "host" r.Host] fun s =>
      .returned
        ⟨http.Error s.w (http.StatusText http.StatusServiceUnavailable) http.StatusServiceUnavailable, s.effects⟩
  else if !s.w.isHijacker then
    logError s r.Context "error getting hijack interface" err [] fun s =>
      .returned
        ⟨http.Error s.w (http.StatusText http.StatusInternalServerError) http.StatusInternalServerError, s.effects⟩
  else
    let s : State := { s with effects := s.effects ++ [Effect.hijack] }
    match s.w.Hijack with
    | .panic p => .panicked s p
    | .err e =>
      logError s r.Context "error hijacking client connection" (some e) [] fun s =>
        .returned
        ⟨http.Error s.w (http.StatusText http.StatusInternalServerError) http.StatusInternalServerError, s.effects⟩
    | .conn tcp =>
      let s : State := { s with effects := s.effects ++ [Effect.connWrite "HTTP/1.1 200 OK\r\n\r\n"] }
      if !tcp then
        .panicked s "interface conversion: net.Conn is not *net.TCPConn"
      else
        let s : State := { s with effects := s.effects ++ [Effect.transfer] }
        let err := Proxy.transfer env.tunnel
        if err != none then
          logError s r.Context "error copying request/reponse data" err
            [slogString "uri" r.RequestURI] .returned
        else .returned s

/-- Method `Proxy.handleRequest`. -/
def Proxy.handleRequest (env : Env) (w : ResponseWriter) (r : Request) : Outcome :=
  let r := { r with Header := Proxy.removeHopHeaders r.Header }
  let s : State := ⟨w, [.roundTrip r]⟩
  match env.roundTrip r with
  | .error e =>
    logError s r.Context "error sending request" (some e) [slogString "uri" r.RequestURI] fun s =>
      .returned
        ⟨http.Error s.w (http.StatusText http.StatusServiceUnavailable) http.StatusServiceUnavailable, s.effects⟩
  | .ok response =>
    let w := s.w.modifyHeader (fun h => Proxy.copyHeader h response.Header)
    let w := w.WriteHeader response.StatusCode
    let copied := env.copyBody response
    let w := copied.1.foldl ResponseWriter.Write w
    let s : State := { s with w := w }
    let close (s : State) : Outcome := .returned { s with effects := s.effects ++ [.bodyClose] }
    if copied.2 != none then
      logError s r.Context "error copying request/reponse data" copied.2
        [slogString "uri" r.RequestURI] close
    else close s

/-- Method `Proxy.handleNotAllowed`. -/
def Proxy.handleNotAllowed (w : ResponseWriter) (r : Request) : Outcome :=
  let s : State := ⟨w, [.log (LogAttrs r.Context .Error "invalid method"
    [slogString "method" r.Method, slogString "uri" r.RequestURI])]⟩
  .returned
        ⟨http.Error s.w (http.StatusText http.StatusMethodNotAllowed) http.StatusMethodNotAllowed, s.effects⟩

/-- Method `Proxy.ServeHTTP`. -/
def Proxy.ServeHTTP (env : Env) (w : ResponseWriter) (r : Request) : Outcome :=
  if r.Method == http.MethodConnect then Proxy.handleConnect env w r
  else if r.URL.IsAbs then Proxy.handleRequest env w r
  else Proxy.handleNotAllowed w r


/-! ## Sample inputs -/

/-- A destination that accepts the connection, a transport that fails, a tunnel whose
two directions end without error. -/
def sampleEnv : Env :=
  ⟨fun _ => none, fun _ => .error "connection refused", fun _ => ([], none), ⟨none, none, true⟩⟩

/-- A server writer with no `Hijack` method. -/
def plainWriter : ResponseWriter := .server ⟨[], [], .absent⟩

/-- A request `CONNECT example.com:443`. -/
def connectRequest : Request :=
  ⟨"CONNECT", ⟨"", "example.com:443", ""⟩, [], "example.com:443", "example.com:443",
   "10.0.0.7:51234", .background⟩

/-- A request `GET /index.html` with a relative target. -/
def relativeRequest : Request :=
  ⟨"GET", ⟨"", "", "/index.html"⟩, [("Accept", ["*/*"])], "example.com", "/index.html",
   "10.0.0.7:51234", .background⟩

/-- A request `GET http://example.com/` carrying each of the nine hop-by-hop headers
between three others. -/
def absoluteRequest : Request :=
  ⟨"GET", ⟨"http", "example.com", "/"⟩,
   [("Accept", ["text/html", "*/*"]), ("Connection", ["keep-alive", "Upgrade"]),
    ("Keep-Alive", ["timeout=5"]), ("Proxy-Authenticate", ["Basic"]),
    ("Proxy-Authorization", ["Basic Zm9v"]), ("Proxy-Connection", ["keep-alive"]),
    ("Te", ["trailers"]), ("User-Agent", ["curl/8.0"]), ("Trailer", ["Expires"]),
    ("Transfer-Encoding", ["chunked"]), ("Upgrade", ["websocket"]),
    ("X-Request-Id", ["abc123"])],
   "example.com", "http://example.com/", "10.0.0.7:51234", .background⟩

/-! ## Lemmas on the header map -/

theorem Header.lookup_filter (p : String → Bool) (h : Header) (k : String) :
    Header.lookup (h.filter (fun e => p e.1)) k = if p k then Header.lookup h k else none := by
  induction h with
  | nil => simp [Header.lookup]
  | cons e rest ih =>
    obtain ⟨k1, vs⟩ := e
    by_cases hp : p k1 = true <;> by_cases hk : k1 = k
    · subst hk; simp [List.filter_cons, hp, Header.lookup]
    · simp [List.filter_cons, hp, Header.lookup, hk, ih]
    · subst hk; simp [List.filter_cons, hp, Header.lookup, ih]
    · simp [List.filter_cons, hp, Header.lookup, hk, ih]

theorem Header.lookup_eq_none_iff (h : Header) (k : String) :
    Header.lookup h k = none ↔ k ∉ Header.keys h := by
  induction h with
  | nil => simp [Header.lookup, Header.keys]
  | cons e rest ih =>
    obtain ⟨k1, vs⟩ := e
    by_cases hk : k1 = k
    · subst hk; simp [Header.lookup, Header.keys]
    · have hk2 : ¬ k = k1 := fun h => hk h.symm
      simp only [Header.keys] at ih
      simp [Header.lookup, Header.keys, hk, hk2, ih]

theorem Header.foldl_Del_eq_filter (ks : List String) (h : Header) :
    ks.foldl (fun header key => Header.Del header key) h
      = h.filter (fun e => !(ks.map CanonicalMIMEHeaderKey).contains e.1) := by
  induction ks generalizing h with
  | nil => simp
  | cons k ks ih =>
    rw [List.foldl_cons, ih]
    simp only [Header.Del, Header.delete, List.filter_filter, List.map_cons]
    apply List.filter_congr
    intro e _
    by_cases h1 : e.1 = CanonicalMIMEHeaderKey k
    · simp [h1]
    · simp [h1, List.contains_cons]

theorem Proxy.hopHeaders_canonical :
    Proxy.hopHeaders.map CanonicalMIMEHeaderKey = Proxy.hopHeaders := by decide

theorem Proxy.removeHopHeaders_eq_filter (h : Header) :
    Proxy.removeHopHeaders h = h.filter (fun e => !Proxy.hopHeaders.contains e.1) := by
  rw [Proxy.removeHopHeaders, Header.foldl_Del_eq_filter, Proxy.hopHeaders_canonical]

theorem Header.lookup_store (h : Header) (k : String) (vs : List String) (k2 : String) :
    Header.lookup (Header.store h k vs) k2 = if k = k2 then some vs else Header.lookup h k2 := by
  induction h with
  | nil => simp [Header.store, Header.lookup]
  | cons e rest ih =>
    obtain ⟨k1, vs1⟩ := e
    by_cases h1 : k1 = k <;> by_cases h2 : k = k2
    · subst h1; subst h2; simp [Header.store, Header.lookup]
    · subst h1; simp [Header.store, Header.lookup, h2]
    · subst h2; simp [Header.store, Header.lookup, h1, ih]
    · simp [Header.store, Header.lookup, h1, h2, ih]

theorem Header.index_Add (h : Header) (key value k : String) :
    Header.index (Header.Add h key value) k
      = if CanonicalMIMEHeaderKey key = k then Header.index h k ++ [value] else Header.index h k := by
  unfold Header.Add Header.index
  simp only [Header.lookup_store]
  by_cases hk : CanonicalMIMEHeaderKey key = k
  · subst hk; simp
  · simp [hk]

theorem Header.index_foldl_Add (vs : List String) (h : Header) (key k : String) :
    Header.index (vs.foldl (fun dst value => Header.Add dst key value) h) k
      = if CanonicalMIMEHeaderKey key = k then Header.index h k ++ vs else Header.index h k := by
  induction vs generalizing h with
  | nil => simp
  | cons v vs ih =>
    rw [List.foldl_cons, ih]
    by_cases hk : CanonicalMIMEHeaderKey key = k
    · simp [hk, Header.index_Add]
    · simp [hk, Header.index_Add]

/-- The values `copyHeader` leaves under a key: the old ones, then the values of every
entry of `src` whose canonical key is that key, in the order the entries are visited. -/
theorem Proxy.index_copyHeader (src dst : Header) (k : String) :
    Header.index (Proxy.copyHeader dst src) k
      = Header.index dst k
        ++ ((src.filter (fun e => CanonicalMIMEHeaderKey e.1 = k)).map (fun e => e.2)).flatten := by
  unfold Proxy.copyHeader
  induction src generalizing dst with
  | nil => simp
  | cons e rest ih =>
    rw [List.foldl_cons, ih, Header.index_foldl_Add]
    by_cases hk : CanonicalMIMEHeaderKey e.1 = k
    · simp [hk, List.filter_cons]
    · simp [hk, List.filter_cons]

theorem Header.flatten_filter_eq_index (src : Header) (k : String)
    (hcanon : Header.Canonical src) (hnodup : (Header.keys src).Nodup) :
    ((src.filter (fun e => CanonicalMIMEHeaderKey e.1 = k)).map (fun e => e.2)).flatten
      = Header.index src k := by
  induction src with
  | nil => simp [Header.index, Header.lookup]
  | cons e rest ih =>
    obtain ⟨k1, vs⟩ := e
    have hc1 : CanonicalMIMEHeaderKey k1 = k1 := hcanon k1 (by simp [Header.keys])
    have hcr : Header.Canonical rest := fun q hq => hcanon q (by
      simp only [Header.keys, List.map_cons, List.mem_cons] at hq ⊢
      exact Or.inr hq)
    simp only [Header.keys, List.map_cons, List.nodup_cons] at hnodup
    have ihr := ih hcr hnodup.2
    by_cases hk : k1 = k
    · subst hk
      have hnone : Header.lookup rest k1 = none :=
        (Header.lookup_eq_none_iff rest k1).2 hnodup.1
      have hrest : Header.index rest k1 = [] := by simp [Header.index, hnone]
      rw [hrest] at ihr
      simp [List.filter_cons, hc1, ihr, Header.index, Header.lookup]
    · simp only [List.filter_cons, hc1, hk, decide_False, Bool.false_eq_true, if_false, ihr]
      simp [Header.index, Header.lookup, hk]

theorem Header.mem_of_lookup (h : Header) (k : String) (vs : List String)
    (hl : Header.lookup h k = some vs) : (k, vs) ∈ h := by
  induction h with
  | nil => simp [Header.lookup] at hl
  | cons e rest ih =>
    obtain ⟨k1, vs1⟩ := e
    by_cases hk : k1 = k
    · subst hk
      simp [Header.lookup] at hl
      subst hl
      simp
    · simp only [Header.lookup, hk, if_false] at hl
      exact List.mem_cons_of_mem _ (ih hl)

theorem Header.lookup_of_mem (h : Header) (k : String) (vs : List String)
    (hnodup : (Header.keys h).Nodup) (hm : (k, vs) ∈ h) : Header.lookup h k = some vs := by
  induction h with
  | nil => simp at hm
  | cons e rest ih =>
    obtain ⟨k1, vs1⟩ := e
    simp only [Header.keys, List.map_cons, List.nodup_cons] at hnodup
    rcases List.mem_cons.1 hm with heq | hrest
    · injection heq with h1 h2
      subst h1; subst h2
      simp [Header.lookup]
    · have hk : k1 ≠ k := by
        intro hk
        subst hk
        exact hnodup.1 (List.mem_map_of_mem (fun e => e.1) hrest)
      simp only [Header.lookup, hk, if_false]
      exact ih hnodup.2 hrest

theorem Header.lookup_perm (h1 h2 : Header) (k : String)
    (hnodup : (Header.keys h2).Nodup) (hp : h1.Perm h2) :
    Header.lookup h1 k = Header.lookup h2 k := by
  have hpk : (Header.keys h1).Perm (Header.keys h2) :=
    List.Perm.map (fun e : String × List String => e.1) hp
  have hn1 : (Header.keys h1).Nodup := hpk.nodup_iff.2 hnodup
  cases hl : Header.lookup h1 k with
  | none =>
    have hk : k ∉ Header.keys h1 := (Header.lookup_eq_none_iff h1 k).1 hl
    have hk2 : k ∉ Header.keys h2 := fun hm => hk (hpk.mem_iff.2 hm)
    exact ((Header.lookup_eq_none_iff h2 k).2 hk2).symm
  | some vs =>
    have hm : (k, vs) ∈ h2 := hp.mem_iff.1 (Header.mem_of_lookup h1 k vs hl)
    exact (Header.lookup_of_mem h2 k vs hnodup hm).symm

/-! ## Lemmas on response writers -/

theorem ResponseWriter.serverCalls_modifyHeader (f : Sproxy.Header → Sproxy.Header)
    (w : ResponseWriter) :
    (w.modifyHeader f).serverCalls = w.serverCalls := by
  induction w with
  | server sw => rfl
  | logResponseWriter inner c ih => simpa [ResponseWriter.modifyHeader, ResponseWriter.serverCalls] using ih

theorem ResponseWriter.serverCalls_WriteHeader (w : ResponseWriter) (code : Int) :
    (w.WriteHeader code).serverCalls = w.serverCalls ++ [.WriteHeader code] := by
  induction w with
  | server sw => rfl
  | logResponseWriter inner c ih => simpa [ResponseWriter.WriteHeader, ResponseWriter.serverCalls] using ih

theorem ResponseWriter.serverCalls_Write (w : ResponseWriter) (data : String) :
    (w.Write data).serverCalls = w.serverCalls ++ [.Write data] := by
  induction w with
  | server sw => rfl
  | logResponseWriter inner c ih => simpa [ResponseWriter.Write, ResponseWriter.serverCalls] using ih

theorem http.serverCalls_Error (w : ResponseWriter) (msg : String) (code : Int) :
    (http.Error w msg code).serverCalls
      = w.serverCalls ++ [.WriteHeader code, .Write (msg ++ "\n")] := by
  simp [http.Error, ResponseWriter.serverCalls_Write, ResponseWriter.serverCalls_WriteHeader,
    ResponseWriter.serverCalls_modifyHeader]

theorem statusCodes_append (xs ys : List WriterCall) :
    statusCodes (xs ++ ys) = statusCodes xs ++ statusCodes ys := by
  simp [statusCodes, List.filterMap_append]

theorem Context.Value_of_binds_false (ctx : Context) (key : CtxKey)
    (h : ctx.binds key = false) : ctx.Value key = none := by
  induction ctx with
  | background => rfl
  | withValue parent k v ih =>
    simp only [Context.binds, Bool.or_eq_false_iff, decide_eq_false_iff_not] at h
    simp [Context.Value, h.1, ih h.2]

theorem logResponseWriter.statusCode_run (calls : List WriterCall) (rw : logResponseWriter) :
    (rw.run calls).statusCode = ((statusCodes calls).getLast?).getD rw.statusCode := by
  unfold logResponseWriter.run
  induction calls generalizing rw with
  | nil => simp [statusCodes]
  | cons c cs ih =>
    rw [List.foldl_cons, ih]
    cases c <;> simp [statusCodes, logResponseWriter.call, logResponseWriter.WriteHeader,
      List.getLast?_cons]

/-- The methods of the struct `logResponseWriter` are the methods the interface value
dispatches to. -/
theorem logResponseWriter.toWriter_call (rw : logResponseWriter) (c : WriterCall) :
    (rw.call c).toWriter = rw.toWriter.call c := by
  cases c <;> rfl

theorem logResponseWriter.toWriter_Hijack (rw : logResponseWriter) :
    rw.Hijack = rw.toWriter.Hijack := rfl

/-! ## Lemmas on the handlers -/

theorem logError_some (s : State) (ctx : Context) (msg e : String) (rest : List Attr)
    (k : State → Outcome) :
    logError s ctx msg (some e) rest k
      = k { s with effects := s.effects ++
              [.log (LogAttrs ctx .Error msg (slogString "error" e :: rest))] } := rfl

theorem logError_none (s : State) (ctx : Context) (msg : String) (rest : List Attr)
    (k : State → Outcome) :
    logError s ctx msg none rest k
      = .panicked s "runtime error: invalid memory address or nil pointer dereference" := rfl

/-- The effects of the forward branch: the round trip with the stripped header first,
then only log records and the close of the response body. -/
theorem Proxy.handleRequest_effects (env : Env) (w : ResponseWriter) (r : Request) :
    ∃ rest, (Proxy.handleRequest env w r).state.effects
        = .roundTrip { r with Header := Proxy.removeHopHeaders r.Header } :: rest
      ∧ ∀ e ∈ rest, (∃ c, e = .log c) ∨ e = .bodyClose := by
  unfold Proxy.handleRequest
  cases hrt : env.roundTrip { r with Header := Proxy.removeHopHeaders r.Header } with
  | error e =>
    simp only [hrt, logError_some]
    exact ⟨_, rfl, by simp⟩
  | ok response =>
    simp only [hrt]
    cases hc : (env.copyBody response).2 with
    | none => exact ⟨_, rfl, by simp⟩
    | some e =>
      simp only [logError_some]
      exact ⟨_, rfl, by simp⟩

/-- When the takeover returns an error the tunnel branch answers 500 and neither writes
the tunnel line nor starts the transfer. -/
theorem Proxy.handleConnect_hijack_error (env : Env) (w : ResponseWriter) (r : Request)
    (e : String) (hdial : env.dial r.Host = none) (hcap : w.isHijacker = true)
    (hhj : w.Hijack = .err e) :
    Proxy.handleConnect env w r = .returned
      ⟨http.Error w (http.StatusText http.StatusInternalServerError)
          http.StatusInternalServerError,
        [.dial r.Host, .hijack,
         .log (LogAttrs r.Context .Error "error hijacking client connection"
           [slogString "error" e])]⟩ := by
  simp [Proxy.handleConnect, hdial, hcap, hhj, logError_some]

/-- When the writer has no takeover method the tunnel branch panics on `err.Error()`
before it logs or writes anything. -/
theorem Proxy.handleConnect_no_hijacker (env : Env) (w : ResponseWriter) (r : Request)
    (hdial : env.dial r.Host = none) (hcap : w.isHijacker = false) :
    Proxy.handleConnect env w r = .panicked ⟨w, [.dial r.Host]⟩
      "runtime error: invalid memory address or nil pointer dereference" := by
  simp [Proxy.handleConnect, hdial, hcap, logError_none]

/-! ## The dispatcher -/

/-- C1: a request whose method is not CONNECT and whose URL is not absolute is handled
by `handleNotAllowed`: the handler returns without a panic, the one status code it
writes to the server is 405, and its only effect is the error record, so nothing is
dialed and nothing is forwarded. -/
theorem Proxy.ServeHTTP_relative_is_405 (env : Env) (w : ResponseWriter) (r : Request)
    (hm : r.Method ≠ http.MethodConnect) (hrel : r.URL.IsAbs = false) :
    Proxy.ServeHTTP env w r = Proxy.handleNotAllowed w r ∧
    (Proxy.ServeHTTP env w r).isPanic = false ∧
    statusCodes (Proxy.ServeHTTP env w r).state.w.serverCalls
      = statusCodes w.serverCalls ++ [405] ∧
    (Proxy.ServeHTTP env w r).state.effects
      = [.log (LogAttrs r.Context .Error "invalid method"
          [slogString "method" r.Method, slogString "uri" r.RequestURI])] := by
  have hserve : Proxy.ServeHTTP env w r = Proxy.handleNotAllowed w r := by
    simp [Proxy.ServeHTTP, hm, hrel]
  rw [hserve]
  refine ⟨rfl, rfl, ?_, rfl⟩
  simp [Proxy.handleNotAllowed, Outcome.state, http.serverCalls_Error, statusCodes_append,
    statusCodes, http.StatusMethodNotAllowed]

/-- C1 at the request `GET /index.html`. -/
theorem Proxy.ServeHTTP_relative_is_405_witness :
    relativeRequest.Method ≠ http.MethodConnect ∧ relativeRequest.URL.IsAbs = false ∧
    statusCodes (Proxy.ServeHTTP sampleEnv plainWriter relativeRequest).state.w.serverCalls
      = statusCodes plainWriter.serverCalls ++ [405] :=
  ⟨by decide, by decide,
    (Proxy.ServeHTTP_relative_is_405 sampleEnv plainWriter relativeRequest
      (by decide) (by decide)).2.2.1⟩

/-- The forward branch hands to the transport the request with the keys of `hopHeaders`
deleted from its header map. -/
theorem Proxy.ServeHTTP_strips_hopHeaders (env : Env) (w : ResponseWriter)
    (r : Request) (hm : r.Method ≠ http.MethodConnect) (habs : r.URL.IsAbs = true) :
    (Proxy.ServeHTTP env w r).state.effects.head?
      = some (.roundTrip { r with Header := Proxy.removeHopHeaders r.Header }) ∧
    (∀ q, Effect.roundTrip q ∈ (Proxy.ServeHTTP env w r).state.effects →
      q = { r with Header := Proxy.removeHopHeaders r.Header }) ∧
    (∀ k ∈ Proxy.hopHeaders, k ∉ Header.keys (Proxy.removeHopHeaders r.Header)) ∧
    (∀ k, CanonicalMIMEHeaderKey k ∈ Proxy.hopHeaders →
      Header.Get (Proxy.removeHopHeaders r.Header) k = "") ∧
    (∀ k, k ∉ Proxy.hopHeaders →
      Header.lookup (Proxy.removeHopHeaders r.Header) k = Header.lookup r.Header k) ∧
    Proxy.removeHopHeaders r.Header
      = r.Header.filter (fun e => !Proxy.hopHeaders.contains e.1) := by
  have hserve : Proxy.ServeHTTP env w r = Proxy.handleRequest env w r := by
    simp [Proxy.ServeHTTP, hm, habs]
  obtain ⟨rest, heff, hrest⟩ := Proxy.handleRequest_effects env w r
  rw [hserve, heff]
  refine ⟨rfl, ?_, ?_, ?_, ?_, Proxy.removeHopHeaders_eq_filter _⟩
  · intro q hq
    rcases List.mem_cons.1 hq with h1 | h1
    · injection h1
    · rcases hrest _ h1 with ⟨c, hc⟩ | hc
      · cases hc
      · cases hc
  · intro k hk
    rw [← Header.lookup_eq_none_iff, Proxy.removeHopHeaders_eq_filter,
      Header.lookup_filter (fun k => !Proxy.hopHeaders.contains k)]
    simp [hk]
  · intro k hk
    have hnone : Header.lookup (Proxy.removeHopHeaders r.Header) (CanonicalMIMEHeaderKey k)
        = none := by
      rw [Proxy.removeHopHeaders_eq_filter,
        Header.lookup_filter (fun k => !Proxy.hopHeaders.contains k)]
      simp [hk]
    simp [Header.Get, Header.index, hnone]
  · intro k hk
    rw [Proxy.removeHopHeaders_eq_filter,
      Header.lookup_filter (fun k => !Proxy.hopHeaders.contains k)]
    simp [hk]

/-- C2: for an absolute-URI request that is not a CONNECT, the request handed to the
transport carries the inbound header map with exactly the nine names Connection,
Keep-Alive, Proxy-Authenticate, Proxy-Authorization, Proxy-Connection, Te, Trailer,
Transfer-Encoding, Upgrade deleted: the round trip is the first effect and the only
round trip, none of the nine names is a key of its header map or is found by `Get` in
any spelling, every other key keeps its value list, and the entries that remain are
the inbound entries under the other keys, in their order. -/
theorem Proxy.ServeHTTP_forwards_stripped_header (env : Env) (w : ResponseWriter)
    (r : Request) (hm : r.Method ≠ http.MethodConnect) (habs : r.URL.IsAbs = true) :
    (Proxy.ServeHTTP env w r).state.effects.head?
      = some (.roundTrip { r with Header := Proxy.removeHopHeaders r.Header }) ∧
    (∀ q, Effect.roundTrip q ∈ (Proxy.ServeHTTP env w r).state.effects →
      q = { r with Header := Proxy.removeHopHeaders r.Header }) ∧
    (∀ k ∈ ["Connection", "Keep-Alive", "Proxy-Authenticate", "Proxy-Authorization",
        "Proxy-Connection", "Te", "Trailer", "Transfer-Encoding", "Upgrade"],
      k ∉ Header.keys (Proxy.removeHopHeaders r.Header)) ∧
    (∀ k, CanonicalMIMEHeaderKey k ∈
        ["Connection", "Keep-Alive", "Proxy-Authenticate", "Proxy-Authorization",
         "Proxy-Connection", "Te", "Trailer", "Transfer-Encoding", "Upgrade"] →
      Header.Get (Proxy.removeHopHeaders r.Header) k = "") ∧
    (∀ k, k ∉ ["Connection", "Keep-Alive", "Proxy-Authenticate", "Proxy-Authorization",
        "Proxy-Connection", "Te", "Trailer", "Transfer-Encoding", "Upgrade"] →
      Header.lookup (Proxy.removeHopHeaders r.Header) k = Header.lookup r.Header k) ∧
    Proxy.removeHopHeaders r.Header
      = r.Header.filter (fun e =>
          !(List.contains ["Connection", "Keep-Alive", "Proxy-Authenticate",
            "Proxy-Authorization", "Proxy-Connection", "Te", "Trailer", "Transfer-Encoding",
            "Upgrade"] e.1)) :=
  Proxy.ServeHTTP_strips_hopHeaders env w r hm habs

/-- C2 at a request `GET http://example.com/` that carries all nine hop-by-hop headers:
the transport receives the request with only `Accept`, `User-Agent` and
`X-Request-Id` left, each with its values. -/
theorem Proxy.ServeHTTP_forwards_stripped_header_witness :
    absoluteRequest.Method ≠ http.MethodConnect ∧ absoluteRequest.URL.IsAbs = true ∧
    (Proxy.ServeHTTP sampleEnv plainWriter absoluteRequest).state.effects.head?
      = some (.roundTrip { absoluteRequest with
          Header := [("Accept", ["text/html", "*/*"]), ("User-Agent", ["curl/8.0"]),
                     ("X-Request-Id", ["abc123"])] }) ∧
    Proxy.removeHopHeaders absoluteRequest.Header
      = [("Accept", ["text/html", "*/*"]), ("User-Agent", ["curl/8.0"]),
         ("X-Request-Id", ["abc123"])] :=
  have hstripped : Proxy.removeHopHeaders absoluteRequest.Header
      = [("Accept", ["text/html", "*/*"]), ("User-Agent", ["curl/8.0"]),
         ("X-Request-Id", ["abc123"])] := by decide
  ⟨by decide, by decide,
    hstripped ▸ (Proxy.ServeHTTP_forwards_stripped_header sampleEnv plainWriter absoluteRequest
      (by decide) (by decide)).1,
    hstripped⟩

/-- C3 at the failing input: a CONNECT whose dial succeeds, served with a writer that
has no `Hijack` method, ends in a panic, directly and behind the logging wrapper alike,
and no status code reaches the server. -/
theorem Proxy.handleConnect_without_hijacker_panics :
    Proxy.ServeHTTP sampleEnv plainWriter connectRequest
      = .panicked ⟨plainWriter, [.dial "example.com:443"]⟩
          "runtime error: invalid memory address or nil pointer dereference" ∧
    (Proxy.ServeHTTP sampleEnv (.logResponseWriter plainWriter 200) connectRequest).isPanic
      = true ∧
    statusCodes (Proxy.ServeHTTP sampleEnv plainWriter connectRequest).state.w.serverCalls
      = [] ∧
    statusCodes (Proxy.ServeHTTP sampleEnv (.logResponseWriter plainWriter 200)
      connectRequest).state.w.serverCalls = [] := by
  decide

/-- C4: `copyHeader` is additive.  For a source map with canonical keys, whatever the
order `visit` in which the range loop meets its entries, the values of every key in
the destination afterwards are the values the destination held before followed by the
values of the source for that key, in the order of the source. -/
theorem Proxy.copyHeader_additive (dst src visit : Header) (k : String)
    (hcanon : Header.Canonical src) (hnodup : (Header.keys src).Nodup)
    (hvisit : visit.Perm src) :
    Header.index (Proxy.copyHeader dst visit) k = Header.index dst k ++ Header.index src k := by
  have hpk : (Header.keys visit).Perm (Header.keys src) :=
    List.Perm.map (fun e : String × List String => e.1) hvisit
  have hcv : Header.Canonical visit := fun q hq => hcanon q (hpk.mem_iff.1 hq)
  have hnv : (Header.keys visit).Nodup := hpk.nodup_iff.2 hnodup
  rw [Proxy.index_copyHeader, Header.flatten_filter_eq_index visit k hcv hnv]
  unfold Header.index
  rw [Header.lookup_perm visit src k hnodup hvisit]

/-- C4 at a destination that holds `Vary` and a source visited in the other order. -/
theorem Proxy.copyHeader_additive_witness :
    Header.Canonical [("Set-Cookie", ["a=1", "b=2"]), ("Vary", ["Accept"])] ∧
    Header.index
        (Proxy.copyHeader [("Vary", ["Origin"])] [("Vary", ["Accept"]), ("Set-Cookie", ["a=1", "b=2"])])
        "Vary"
      = Header.index [("Vary", ["Origin"])] "Vary"
        ++ Header.index [("Set-Cookie", ["a=1", "b=2"]), ("Vary", ["Accept"])] "Vary" :=
  ⟨by unfold Header.Canonical; decide,
    Proxy.copyHeader_additive [("Vary", ["Origin"])]
      [("Set-Cookie", ["a=1", "b=2"]), ("Vary", ["Accept"])]
      [("Vary", ["Accept"]), ("Set-Cookie", ["a=1", "b=2"])] "Vary"
      (by unfold Header.Canonical; decide) (by decide) (by decide)⟩

/-! ## The correlation token -/

/-- C5: the inner handler is called with the request whose context binds the token, and
the token is the value of the `X-Request-ID` header when `allowRemote` is true and
that value is not empty, the generated string otherwise; with `allowRemote` false it
is the generated string whatever the header holds. -/
theorem RequestIdMiddleware.ServeHTTP_token {α : Type} (next : ResponseWriter → Request → α)
    (allowRemote : Bool) (fresh : String) (w : ResponseWriter) (r : Request) :
    RequestIdMiddleware.ServeHTTP next allowRemote fresh w r
      = next w (r.WithContext (SetRequestId r.Context
          (if allowRemote = true ∧ Header.Get r.Header "X-Request-ID" ≠ ""
           then Header.Get r.Header "X-Request-ID" else fresh))) ∧
    GetRequestID (SetRequestId r.Context
          (if allowRemote = true ∧ Header.Get r.Header "X-Request-ID" ≠ ""
           then Header.Get r.Header "X-Request-ID" else fresh))
      = (if allowRemote = true ∧ Header.Get r.Header "X-Request-ID" ≠ ""
           then Header.Get r.Header "X-Request-ID" else fresh) ∧
    RequestIdMiddleware.ServeHTTP next false fresh w r
      = next w (r.WithContext (SetRequestId r.Context fresh)) := by
  refine ⟨?_, ?_, ?_⟩
  · unfold RequestIdMiddleware.ServeHTTP
    cases allowRemote
    · simp
    · by_cases hh : Header.Get r.Header "X-Request-ID" = ""
      · simp [hh]
      · simp [hh]
  · simp [GetRequestID, SetRequestId, Context.Value]
  · simp [RequestIdMiddleware.ServeHTTP]

/-- C6: reading the token of a context on which `SetRequestId` has just bound a token
gives that token, whatever the context held before; reading a context in whose chain
the key was never bound gives the empty string. -/
theorem GetRequestID_SetRequestId (ctx : Context) (token : String) (bare : Context)
    (hbare : bare.binds requestIdKey = false) :
    GetRequestID (SetRequestId ctx token) = token ∧ GetRequestID bare = "" := by
  constructor
  · simp [GetRequestID, SetRequestId, Context.Value]
  · simp [GetRequestID, Context.Value_of_binds_false bare requestIdKey hbare]

/-- C6 at a context that already holds a token, and at a context that binds another
key of the same text. -/
theorem GetRequestID_SetRequestId_witness :
    (Context.withValue .background ⟨"string", "request-id"⟩ (.str "other")).binds requestIdKey
      = false ∧
    GetRequestID (SetRequestId (SetRequestId .background "01HZX") "abc123") = "abc123" ∧
    GetRequestID (Context.withValue .background ⟨"string", "request-id"⟩ (.str "other")) = "" :=
  ⟨by decide,
    GetRequestID_SetRequestId (SetRequestId .background "01HZX") "abc123"
      (Context.withValue .background ⟨"string", "request-id"⟩ (.str "other")) (by decide)⟩

/-- C7: the adapter returns what the wrapped handler returns on the same context and on
the record itself when the context holds no token, and on the record with the one
attribute `request-id` appended when it holds one. -/
theorem RequestIdHandler.Handle_appends_token (h : SlogHandler) (ctx : Context)
    (record : Record) :
    RequestIdHandler.Handle h ctx record
      = h.Handle ctx
          (if GetRequestID ctx = "" then record
           else { record with
                  Attrs := record.Attrs ++ [⟨"request-id", .str (GetRequestID ctx)⟩] }) := by
  unfold RequestIdHandler.Handle
  by_cases hid : GetRequestID ctx = ""
  · simp [hid]
  · simp [hid, Record.AddAttrs, slogString]

/-! ## The logging middleware -/

/-- C8: when the inner handler returns, the middleware hands two records to the logger;
the second is the record "request finished", its level is error exactly when the
captured status code is at least 500 and info exactly when it is below 500, and its
one `status` attribute holds the captured status code. -/
theorem LoggingMiddleware.finished_level (run : HandlerRun) (start finish : Int)
    (w : ResponseWriter) (r : Request) (hret : run.panics = false) :
    ∃ started finished,
      (LoggingMiddleware.ServeHTTP run start finish w r).logs = [started, finished] ∧
      finished.record.Message = "request finished" ∧
      (finished.record.Level = Level.Error ↔
        500 ≤ ((logResponseWriter.mk w http.StatusOK).run run.calls).statusCode) ∧
      (finished.record.Level = Level.Info ↔
        ((logResponseWriter.mk w http.StatusOK).run run.calls).statusCode < 500) ∧
      finished.record.Attrs.filter (fun a => a.Key == "status")
        = [slogInt "status" ((logResponseWriter.mk w http.StatusOK).run run.calls).statusCode] := by
  refine ⟨LogAttrs r.Context .Info "request started"
      [slogString "method" r.Method, slogString "uri" r.RequestURI,
       slogString "remote" r.RemoteAddr],
    LogAttrs r.Context
      (if ((logResponseWriter.mk w http.StatusOK).run run.calls).statusCode
          ≥ http.StatusInternalServerError then Level.Error else Level.Info)
      "request finished"
      [slogString "method" r.Method, slogString "uri" r.RequestURI,
       slogString "remote" r.RemoteAddr,
       slogInt "status" ((logResponseWriter.mk w http.StatusOK).run run.calls).statusCode,
       slogDuration "duration" (finish - start)], ?_⟩
  refine ⟨?_, rfl, ?_, ?_, ?_⟩
  · simp [LoggingMiddleware.ServeHTTP, hret]
  · by_cases hc : 500 ≤ ((logResponseWriter.mk w http.StatusOK).run run.calls).statusCode
    · simp [LogAttrs, http.StatusInternalServerError, hc]
    · simp [LogAttrs, http.StatusInternalServerError, hc]
  · by_cases hc : 500 ≤ ((logResponseWriter.mk w http.StatusOK).run run.calls).statusCode
    · simp [LogAttrs, http.StatusInternalServerError, hc]
    · simp [LogAttrs, http.StatusInternalServerError, hc, not_le.1 hc]
  · simp [LogAttrs, slogString, slogInt, slogDuration, List.filter_cons]

/-- C8 at a handler that writes 502. -/
theorem LoggingMiddleware.finished_level_witness :
    (HandlerRun.mk [.WriteHeader 502, .Write "Bad Gateway"] false).panics = false ∧
    ∃ started finished,
      (LoggingMiddleware.ServeHTTP ⟨[.WriteHeader 502, .Write "Bad Gateway"], false⟩ 10 25
          plainWriter absoluteRequest).logs = [started, finished] ∧
      finished.record.Message = "request finished" ∧
      (finished.record.Level = Level.Error ↔
        500 ≤ ((logResponseWriter.mk plainWriter http.StatusOK).run
          [.WriteHeader 502, .Write "Bad Gateway"]).statusCode) ∧
      (finished.record.Level = Level.Info ↔
        ((logResponseWriter.mk plainWriter http.StatusOK).run
          [.WriteHeader 502, .Write "Bad Gateway"]).statusCode < 500) ∧
      finished.record.Attrs.filter (fun a => a.Key == "status")
        = [slogInt "status" ((logResponseWriter.mk plainWriter http.StatusOK).run
          [.WriteHeader 502, .Write "Bad Gateway"]).statusCode] :=
  ⟨rfl, LoggingMiddleware.finished_level ⟨[.WriteHeader 502, .Write "Bad Gateway"], false⟩
    10 25 plainWriter absoluteRequest rfl⟩

/-- C9 fails on two calls of `WriteHeader`: after `WriteHeader(404)` then
`WriteHeader(500)` the wrapper holds 500 and the finished record logs 500, while the
first code written is 404. -/
theorem logResponseWriter.second_WriteHeader_overwrites :
    ((logResponseWriter.mk plainWriter http.StatusOK).run
        [.WriteHeader 404, .WriteHeader 500]).statusCode = 500 ∧
    (statusCodes [.WriteHeader 404, .WriteHeader 500]).head? = some 404 ∧
    (LoggingMiddleware.ServeHTTP ⟨[.WriteHeader 404, .WriteHeader 500], false⟩ 10 25
        plainWriter absoluteRequest).statusCode = 500 ∧
    ((logResponseWriter.mk plainWriter http.StatusOK).run
        [.WriteHeader 404, .WriteHeader 500]).statusCode
      ≠ ((statusCodes [.WriteHeader 404, .WriteHeader 500]).head?).getD http.StatusOK := by
  decide

/-- C9 as amended: the captured status code is the code of the last `WriteHeader` call
of the inner handler, and 200 when `WriteHeader` is never called; it is the status
the middleware logs, and the server receives every `WriteHeader` call in order. -/
theorem logResponseWriter.captures_last_status (w : Sproxy.ResponseWriter)
    (calls : List WriterCall)
    (panics : Bool) (start finish : Int) (r : Request) :
    ((logResponseWriter.mk w http.StatusOK).run calls).statusCode
      = ((statusCodes calls).getLast?).getD http.StatusOK ∧
    (LoggingMiddleware.ServeHTTP ⟨calls, panics⟩ start finish w r).statusCode
      = ((statusCodes calls).getLast?).getD http.StatusOK ∧
    ((logResponseWriter.mk w http.StatusOK).run []).statusCode = http.StatusOK := by
  refine ⟨logResponseWriter.statusCode_run calls _, ?_, rfl⟩
  cases panics <;>
    simp [LoggingMiddleware.ServeHTTP, logResponseWriter.statusCode_run]

/-! ## The transfer engine -/

/-- C10 fails when the goroutine started second reports first: with both directions
failing, `transfer` returns the error of the second-started direction. -/
theorem Proxy.transfer_returns_first_received :
    Proxy.transfer ⟨some "read: connection reset", some "write: broken pipe", false⟩
      = some "write: broken pipe" ∧
    Proxy.transfer ⟨some "read: connection reset", some "write: broken pipe", false⟩
      ≠ some "read: connection reset" := by
  decide

/-- C10 as amended: the result of `transfer` is the outcome of the direction that
reported first when that outcome is an error, and the outcome of the other direction
otherwise; it is nil exactly when both directions reported nil. -/
theorem Proxy.transfer_first_reported (run : TransferRun) :
    Proxy.transfer run
      = (if (if run.firstSendsFirst then run.errFirst else run.errSecond) ≠ none
         then (if run.firstSendsFirst then run.errFirst else run.errSecond)
         else (if run.firstSendsFirst then run.errSecond else run.errFirst)) ∧
    (Proxy.transfer run = none ↔ run.errFirst = none ∧ run.errSecond = none) := by
  obtain ⟨e1, e2, b⟩ := run
  cases b <;> cases e1 <;> cases e2 <;> simp [Proxy.transfer, chanSend]

end Sproxy
